import Mathlib

/-!
Verification of the Eyegle eye-tracking software against its
natural-language specification.

The Python sources are shallowly embedded:
* `utils/safety.py` (`SafetyManager`) as a record `SafetyState` with
  explicit rational timestamps; each method becomes a state-passing
  function taking the current time `now` as a parameter.
* `core/gaze_mapper.py` (`GazeMapper`) over exact rationals, with
  `np.linalg.lstsq` modelled by its documented behaviour: it returns the
  minimum-norm least-squares solution and does not raise for
  rank-deficient systems.
* `core/expression_engine.py` (`ExpressionEngine`) as a pure state
  transition over rational eye-aspect ratios and timestamps.
* `core/smoother.py` (`VelocityBasedSmoother`) over the reals, since the
  code takes Euclidean norms and fractional powers.
-/

open Matrix

/-! ## Safety manager (src/utils/safety.py) -/

/-- State of `SafetyManager`.  `clickTimes` is the `click_times` deque
(maxlen 10), oldest first.  `actionCooldowns` is the `action_cooldowns`
dict as an association list (most recent binding first). -/
structure SafetyState where
  enabled : Bool
  paused : Bool
  clickTimes : List ℚ
  maxClicksPerSecond : ℕ
  lastFaceTime : ℚ
  noFaceTimeout : ℚ
  actionCooldowns : List (String × ℚ)
deriving DecidableEq, Repr

/-- The fixed `cooldown_times` dict; `.get(action_type, 0)` yields 0 for
unknown kinds. -/
def cooldownTimes (a : String) : ℚ :=
  if a = "click" then 1/5
  else if a = "scroll" then 1/10
  else if a = "key" then 3/10
  else 0

/-- Dict update `self.action_cooldowns[action_type] = t`. -/
def setKey (l : List (String × ℚ)) (a : String) (t : ℚ) : List (String × ℚ) :=
  (a, t) :: l.filter (fun p => decide (p.1 ≠ a))

/-- The `while self.click_times and current_time - self.click_times[0] > 1.0:
popleft()` loop of `_check_click_rate`. -/
def pruneOldClicks (now : ℚ) (l : List ℚ) : List ℚ :=
  l.dropWhile (fun t => decide (now - t > 1))

/-- `_check_click_rate`: prunes aged-out clicks (a mutation that persists)
and compares the remaining count to `max_clicks_per_second`. -/
def checkClickRate (now : ℚ) (s : SafetyState) : Bool × SafetyState :=
  let pruned := pruneOldClicks now s.clickTimes
  (decide (pruned.length < s.maxClicksPerSecond), { s with clickTimes := pruned })

/-- The cooldown test of `can_perform_action`: the action is present in
`action_cooldowns` and `time.time() - stamp < cooldown_times.get(kind, 0)`. -/
def cooldownBlocked (s : SafetyState) (now : ℚ) (a : String) : Bool :=
  match s.actionCooldowns.lookup a with
  | some t => decide (now - t < cooldownTimes a)
  | none => false

/-- `SafetyManager.can_perform_action`, with the state it leaves behind. -/
def canPerformAction (s : SafetyState) (now : ℚ) (a : String) : Bool × SafetyState :=
  if !s.enabled || s.paused then (false, s)
  else if cooldownBlocked s now a then (false, s)
  else if a = "click" then
    let r := checkClickRate now s
    if r.1 then (true, r.2) else (false, r.2)
  else (true, s)

/-- Append to the `click_times` deque, whose `maxlen` is 10. -/
def appendClick (l : List ℚ) (t : ℚ) : List ℚ :=
  if 10 ≤ l.length then l.tail ++ [t] else l ++ [t]

/-- `SafetyManager.register_action`. -/
def registerAction (s : SafetyState) (now : ℚ) (a : String) : SafetyState :=
  let s1 := { s with actionCooldowns := setKey s.actionCooldowns a now }
  if a = "click" then { s1 with clickTimes := appendClick s1.clickTimes now } else s1

/-- `SafetyManager.update_face_detection`. -/
def updateFaceDetection (s : SafetyState) (now : ℚ) (faceDetected : Bool) : SafetyState :=
  if faceDetected then
    let s1 := { s with lastFaceTime := now }
    if s1.paused && s1.enabled then { s1 with paused := false } else s1
  else
    if now - s.lastFaceTime > s.noFaceTimeout then { s with paused := true } else s

/-- `SafetyManager.emergency_stop` (without the callback, which does not
touch the latches). -/
def emergencyStop (s : SafetyState) : SafetyState :=
  { s with enabled := false, paused := true }

/-! ## Safety lemmas -/

/-- Clicks inside the trailing window survive the prune loop: the loop only
drops a prefix of aged-out entries. -/
theorem length_filter_le_length_dropWhile (p : ℚ → Bool) (l : List ℚ) :
    (l.filter (fun t => !(p t))).length ≤ (l.dropWhile p).length := by
  induction l with
  | nil => simp
  | cons a l ih =>
    by_cases h : p a = true
    · simpa [List.dropWhile_cons, List.filter_cons, h] using ih
    · simp only [Bool.not_eq_true] at h
      simp only [List.dropWhile_cons, List.filter_cons, h, Bool.not_false, if_true,
        Bool.false_eq_true, if_false, List.length_cons]
      have := List.length_filter_le (fun t => !(p t)) l
      omega

/-- On a time-sorted click deque the prune loop removes exactly the clicks
older than one second. -/
theorem pruneOldClicks_eq_filter (now : ℚ) (l : List ℚ) (h : l.Sorted (· ≤ ·)) :
    pruneOldClicks now l = l.filter (fun t => decide (now - t ≤ 1)) := by
  induction l with
  | nil => rfl
  | cons a l ih =>
    rw [List.sorted_cons] at h
    by_cases ha : now - a > 1
    · have h1 : (decide (now - a > 1)) = true := decide_eq_true ha
      have h2 : (decide (now - a ≤ 1)) = false := decide_eq_false (not_le.mpr ha)
      rw [pruneOldClicks, List.dropWhile_cons, h1, List.filter_cons, h2]
      simp only [if_true, Bool.false_eq_true, if_false]
      exact ih h.2
    · have haw : now - a ≤ 1 := not_lt.mp ha
      have hall : ∀ x ∈ l, (fun t => decide (now - t ≤ 1)) x = true := by
        intro x hx
        have := h.1 x hx
        simp only [decide_eq_true_eq]
        linarith
      have h1 : (decide (now - a > 1)) = false := decide_eq_false ha
      have h2 : (decide (now - a ≤ 1)) = true := decide_eq_true haw
      rw [pruneOldClicks, List.dropWhile_cons, h1, List.filter_cons, h2]
      simp only [Bool.false_eq_true, if_false, if_true]
      rw [List.filter_eq_self.mpr hall]

/-- C6: once the configured maximum number of clicks sits in the trailing
1-second window, `can_perform_action "click"` returns false; and with all
other gates open (enabled, not paused, click cooldown elapsed) it returns
true again as soon as fewer than the maximum clicks remain inside the
window (the older ones having aged out). -/
theorem c6_click_rate_limit :
    (∀ (s : SafetyState) (now : ℚ),
      s.maxClicksPerSecond ≤ (s.clickTimes.filter (fun t => decide (now - t ≤ 1))).length →
      (canPerformAction s now "click").1 = false) ∧
    (∀ (s : SafetyState) (now : ℚ),
      s.enabled = true → s.paused = false →
      cooldownBlocked s now "click" = false →
      s.clickTimes.Sorted (· ≤ ·) →
      (s.clickTimes.filter (fun t => decide (now - t ≤ 1))).length < s.maxClicksPerSecond →
      (canPerformAction s now "click").1 = true) := by
  constructor
  · intro s now hfull
    have hle := length_filter_le_length_dropWhile (fun t => decide (now - t > 1)) s.clickTimes
    have heq : s.clickTimes.filter (fun t => !(decide (now - t > 1)))
        = s.clickTimes.filter (fun t => decide (now - t ≤ 1)) := by
      apply List.filter_congr
      intro x _
      rw [← decide_not]
      simp only [decide_eq_decide]
      exact not_lt
    rw [heq] at hle
    have hrate : (checkClickRate now s).1 = false := by
      simp only [checkClickRate, decide_eq_false_iff_not, not_lt, pruneOldClicks]
      omega
    simp only [canPerformAction]
    cases hg : (!s.enabled || s.paused)
    · simp only [Bool.false_eq_true, if_false]
      cases hc : cooldownBlocked s now "click"
      · simp [hrate]
      · simp
    · simp
  · intro s now hen hpa hcool hsorted hfree
    have hrate : (checkClickRate now s).1 = true := by
      simp only [checkClickRate, decide_eq_true_eq]
      rw [pruneOldClicks_eq_filter now s.clickTimes hsorted]
      exact hfree
    simp [canPerformAction, hen, hpa, hcool, hrate]

/-- C6 witness: a full window of 3 clicks at time 0 blocks a click at
time 1; after the window ages out (time 3) the click is allowed again. -/
theorem c6_witness :
    (canPerformAction ⟨true, false, [0, 0, 0], 3, 0, 2, []⟩ 1 "click").1 = false ∧
    (canPerformAction ⟨true, false, [0, 0, 0], 3, 0, 2, []⟩ 3 "click").1 = true := by
  constructor
  · exact c6_click_rate_limit.1 ⟨true, false, [0, 0, 0], 3, 0, 2, []⟩ 1
      (by norm_num [List.filter_cons, List.filter_nil])
  · exact c6_click_rate_limit.2 ⟨true, false, [0, 0, 0], 3, 0, 2, []⟩ 3 rfl rfl rfl
      (by norm_num [List.sorted_cons]) (by norm_num [List.filter_cons, List.filter_nil])

/-- C7: an update with no face after more than the no-face timeout sets
`paused`; a face-detected update clears `paused` exactly when `enabled` is
still true; face updates never change `enabled`, so after
`emergency_stop` the gate stays disabled. -/
theorem c7_auto_pause_latches :
    (∀ (s : SafetyState) (now : ℚ), now - s.lastFaceTime > s.noFaceTimeout →
      (updateFaceDetection s now false).paused = true) ∧
    (∀ (s : SafetyState) (now : ℚ),
      (updateFaceDetection s now true).paused = (s.paused && !s.enabled)) ∧
    (∀ (s : SafetyState) (now : ℚ) (d : Bool),
      (updateFaceDetection s now d).enabled = s.enabled) ∧
    (∀ (s : SafetyState) (now : ℚ) (d : Bool),
      (updateFaceDetection (emergencyStop s) now d).enabled = false) := by
  refine ⟨?_, ?_, ?_, ?_⟩
  · intro s now h
    simp [updateFaceDetection, h]
  · intro s now
    simp only [updateFaceDetection, Bool.false_eq_true, if_false, if_true]
    cases hp : s.paused <;> cases he : s.enabled <;> simp [hp, he]
  · intro s now d
    cases d <;> simp only [updateFaceDetection, Bool.false_eq_true, if_false, if_true]
    · split <;> rfl
    · split <;> rfl
  · intro s now d
    cases d <;> simp only [updateFaceDetection, emergencyStop, Bool.false_eq_true,
      if_false, if_true]
    · split <;> rfl
    · split <;> rfl

/-- C7 witness: concrete instance of the auto-pause transition. -/
theorem c7_witness :
    (updateFaceDetection ⟨true, false, [], 3, 0, 2, []⟩ 3 false).paused = true :=
  c7_auto_pause_latches.1 ⟨true, false, [], 3, 0, 2, []⟩ 3 (by norm_num)

/-- The safety state used to refute C8: one registered click at time 0,
queried at time 2. -/
def c8State : SafetyState := ⟨true, false, [0], 3, 0, 2, []⟩

/-- C8 is false as stated: `can_perform_action "click"` prunes the
aged-out click from the deque, so the safety state is mutated. -/
theorem c8_counterexample :
    (canPerformAction c8State 2 "click").2 ≠ c8State ∧
    (canPerformAction c8State 2 "click").2.clickTimes = [] ∧
    c8State.clickTimes = [0] := by
  have h : canPerformAction c8State 2 "click" =
      (true, { c8State with clickTimes := ([] : List ℚ) }) := by
    norm_num [canPerformAction, c8State, cooldownBlocked, checkClickRate, pruneOldClicks,
      List.dropWhile_cons]
  refine ⟨?_, ?_, rfl⟩
  · rw [h]
    simp [c8State]
  · rw [h]

/-- C8 amended: `can_perform_action` never changes `enabled`, `paused`,
the per-action cooldown stamps, or any other field except the click
window; for kinds other than `click` the state is fully unchanged; for
`click` its only effect is dropping click timestamps older than one
second from the front of the deque. -/
theorem c8_amended (s : SafetyState) (now : ℚ) (a : String) :
    ((canPerformAction s now a).2.enabled = s.enabled ∧
     (canPerformAction s now a).2.paused = s.paused ∧
     (canPerformAction s now a).2.actionCooldowns = s.actionCooldowns ∧
     (canPerformAction s now a).2.lastFaceTime = s.lastFaceTime ∧
     (canPerformAction s now a).2.maxClicksPerSecond = s.maxClicksPerSecond ∧
     (canPerformAction s now a).2.noFaceTimeout = s.noFaceTimeout) ∧
    (a ≠ "click" → (canPerformAction s now a).2 = s) ∧
    ((canPerformAction s now a).2.clickTimes = s.clickTimes ∨
     (canPerformAction s now a).2.clickTimes = pruneOldClicks now s.clickTimes) := by
  simp only [canPerformAction]
  cases hg : (!s.enabled || s.paused)
  · simp only [Bool.false_eq_true, if_false]
    cases hc : cooldownBlocked s now a
    · simp only [Bool.false_eq_true, if_false]
      by_cases hk : a = "click"
      · subst hk
        simp only [if_true, checkClickRate]
        cases hr : decide ((pruneOldClicks now s.clickTimes).length < s.maxClicksPerSecond) <;>
          simp
      · simp [hk]
    · simp
  · simp

/-- C8 amended witness: a non-click query leaves the state untouched. -/
theorem c8_witness : (canPerformAction c8State 2 "scroll").2 = c8State :=
  (c8_amended c8State 2 "scroll").2.1 (by decide)

/-! ## Gaze mapper (src/core/gaze_mapper.py) -/

/-- The `eye_dominance` configuration value: `'left'`, `'right'` or `'both'`. -/
inductive EyeDominance
  | left
  | right
  | both
deriving DecidableEq, Repr

/-- Normalization of an iris position to `[-1, 1]` coordinates used by
`estimate_gaze`: `(p / frame) * 2 - 1` per axis. -/
def normalizeIris (p : ℚ × ℚ) (fw fh : ℚ) : ℚ × ℚ :=
  ((p.1 / fw) * 2 - 1, (p.2 / fh) * 2 - 1)

/-- `GazeMapper.estimate_gaze`: `None` when both irises are absent, the
normalized single iris when one is present, and for two irises the one
selected by eye dominance, or their mean (`np.mean(..., axis=0)`). -/
def estimateGaze (dom : EyeDominance) (leftIris rightIris : Option (ℚ × ℚ))
    (fw fh : ℚ) : Option (ℚ × ℚ) :=
  match leftIris, rightIris with
  | none, none => none
  | some l, none => some (normalizeIris l fw fh)
  | none, some r => some (normalizeIris r fw fh)
  | some l, some r =>
    let ln := normalizeIris l fw fh
    let rn := normalizeIris r fw fh
    match dom with
    | .left => some ln
    | .right => some rn
    | .both => some ((ln.1 + rn.1) / 2, (ln.2 + rn.2) / 2)

/-- `GazeMapper._init_default_mapping`: the fallback affine transform. -/
def defaultTransform (w h : ℚ) : Matrix (Fin 2) (Fin 3) ℚ :=
  !![w/2, 0, w/2; 0, h/2, h/2]

/-- `np.clip(x, lo, hi)`. -/
def clip (x lo hi : ℚ) : ℚ := min (max x lo) hi

/-- `GazeMapper.gaze_to_screen`: homogeneous matrix product followed by
clamping to the screen bounds. -/
def gazeToScreen (M : Matrix (Fin 2) (Fin 3) ℚ) (w h : ℚ) (g : ℚ × ℚ) : ℚ × ℚ :=
  let v := M.mulVec ![g.1, g.2, 1]
  (clip (v 0) 0 w, clip (v 1) 0 h)

/-- A `CalibrationPoint` record. -/
structure CalibrationPoint where
  screenPos : ℚ × ℚ
  gazePos : ℚ × ℚ
  irisLeft : ℚ × ℚ
  irisRight : ℚ × ℚ
deriving DecidableEq, Repr

/-- The calibration-relevant state of a `GazeMapper`. -/
structure GazeMapperState where
  calibrationPoints : List CalibrationPoint
  isCalibrated : Bool
  transform : Matrix (Fin 2) (Fin 3) ℚ

/-- `GazeMapper.__init__`: no points, not calibrated, default mapping. -/
def initGazeMapper (w h : ℚ) : GazeMapperState :=
  ⟨[], false, defaultTransform w h⟩

/-- `GazeMapper.reset_calibration`. -/
def resetCalibration (w h : ℚ) (_ : GazeMapperState) : GazeMapperState :=
  ⟨[], false, defaultTransform w h⟩

/-- The N x 3 homogeneous design matrix `[[gaze_x, gaze_y, 1.0], ...]`
built by `compute_calibration`. -/
def gazeMatrix (pts : List CalibrationPoint) : Matrix (Fin pts.length) (Fin 3) ℚ :=
  Matrix.of fun i j => ![(pts.get i).gazePos.1, (pts.get i).gazePos.2, 1] j

/-- The N x 2 matrix `[[screen_x, screen_y], ...]` built by
`compute_calibration`. -/
def screenMatrix (pts : List CalibrationPoint) : Matrix (Fin pts.length) (Fin 2) ℚ :=
  Matrix.of fun i j => ![(pts.get i).screenPos.1, (pts.get i).screenPos.2] j

/-- Inverse of a square rational matrix by the adjugate formula (used for
the normal-equations branch of the least-squares solve). -/
def qInv {n : ℕ} (A : Matrix (Fin n) (Fin n) ℚ) : Matrix (Fin n) (Fin n) ℚ :=
  (A.det)⁻¹ • A.adjugate

/-! List-level linear algebra for the rank-deficient branch of the
least-squares solve (Greville's column-recursive pseudoinverse). -/

def dotL (u v : List ℚ) : ℚ := (List.zipWith (· * ·) u v).sum

def scaleL (c : ℚ) (v : List ℚ) : List ℚ := v.map (fun x => c * x)

def vecAddL (u v : List ℚ) : List ℚ := List.zipWith (· + ·) u v

def vecSubL (u v : List ℚ) : List ℚ := List.zipWith (· - ·) u v

/-- Linear combination `Σ cs i • vs i` of length-`m` vectors. -/
def linCombL (m : ℕ) (vs : List (List ℚ)) (cs : List ℚ) : List ℚ :=
  (List.zipWith scaleL cs vs).foldl vecAddL (List.replicate m 0)

/-- One step of Greville's algorithm: extend the pseudoinverse `P` of the
columns collected so far by one more column `a`. -/
def grevilleStep (m : ℕ) (acc : List (List ℚ) × List (List ℚ)) (a : List ℚ) :
    List (List ℚ) × List (List ℚ) :=
  let cols := acc.1
  let P := acc.2
  let d := P.map (fun r => dotL r a)
  let c := vecSubL a (linCombL m cols d)
  let b :=
    if c.any (fun x => decide (x ≠ 0)) then scaleL (dotL c c)⁻¹ c
    else scaleL (1 + dotL d d)⁻¹ (linCombL m P d)
  (cols ++ [a], (List.zipWith (fun r di => vecSubL r (scaleL di b)) P d) ++ [b])

/-- Moore-Penrose pseudoinverse of the matrix whose columns (each of
length `m`) are given, by Greville's algorithm. -/
def pinvL (m : ℕ) (cols : List (List ℚ)) : List (List ℚ) :=
  (cols.foldl (grevilleStep m) ([], [])).2

def transposeL : List (List ℚ) → List (List ℚ)
  | [] => []
  | [r] => r.map (fun x => [x])
  | r :: rs => List.zipWith (fun x col => x :: col) r (transposeL rs)

def matMulL (A B : List (List ℚ)) : List (List ℚ) :=
  A.map (fun r => (transposeL B).map (fun c => dotL r c))

def getEntryL (A : List (List ℚ)) (i j : ℕ) : ℚ := (A.getD i []).getD j 0

/-- Modelled from the numpy documentation of the library call
`np.linalg.lstsq(G, S, rcond=None)[0]` used by `compute_calibration`: it
returns the minimum-norm least-squares solution of `G @ X = S` and raises
only if the SVD fails to converge — never merely because `G` is
rank-deficient.  For a full-column-rank system the unique least-squares
solution is given by the normal equations `(Gᵀ G)⁻¹ Gᵀ S`; in the
rank-deficient case the minimum-norm solution `G⁺ S` is computed via
Greville's algorithm for the pseudoinverse. -/
def lstsq {n : ℕ} (G : Matrix (Fin n) (Fin 3) ℚ) (S : Matrix (Fin n) (Fin 2) ℚ) :
    Matrix (Fin 3) (Fin 2) ℚ :=
  if (Gᵀ * G).det ≠ 0 then qInv (Gᵀ * G) * (Gᵀ * S)
  else
    let colsG := (List.finRange 3).map (fun j => (List.finRange n).map (fun i => G i j))
    let SL := (List.finRange n).map (fun i => [S i 0, S i 1])
    let X := matMulL (pinvL n colsG) SL
    Matrix.of fun i j => getEntryL X i j

/-- `GazeMapper.compute_calibration`: fails (returning `False` and leaving
the state alone) on fewer than 4 points; otherwise solves the
least-squares system, stores the transposed solution as the new 2 x 3
transform and sets `is_calibrated`. -/
def computeCalibration (s : GazeMapperState) : Bool × GazeMapperState :=
  if s.calibrationPoints.length < 4 then (false, s)
  else
    let G := gazeMatrix s.calibrationPoints
    let S := screenMatrix s.calibrationPoints
    (true, { s with transform := (lstsq G S)ᵀ, isCalibrated := true })

/-! ## Calibration and mapping theorems -/

/-- C1: with fewer than 4 calibration points `compute_calibration` returns
`False` and the whole mapper state — in particular the externally visible
transform matrix — is exactly what it was before the call. -/
theorem c1_insufficient_points (s : GazeMapperState)
    (h : s.calibrationPoints.length < 4) :
    computeCalibration s = (false, s) := by
  simp [computeCalibration, h]

/-- C1 witness: the freshly initialized mapper has 0 < 4 points. -/
theorem c1_witness :
    computeCalibration (initGazeMapper 1920 1080) = (false, initGazeMapper 1920 1080) :=
  c1_insufficient_points (initGazeMapper 1920 1080) (by simp [initGazeMapper])

/-- C10: after construction (and after `reset_calibration`) the transform
is the default `[[w/2,0,w/2],[0,h/2,h/2]]`, which maps the gaze square
`[-1,1]^2` affinely onto the full screen rectangle; `gaze_to_screen` is a
total function whose output is always clamped into
`[0,w] x [0,h]`. -/
theorem c10_default_mapping (w h : ℚ) :
    (initGazeMapper w h).transform = defaultTransform w h ∧
    (∀ s : GazeMapperState, (resetCalibration w h s).transform = defaultTransform w h) ∧
    (∀ (M : Matrix (Fin 2) (Fin 3) ℚ) (g : ℚ × ℚ), 0 ≤ w → 0 ≤ h →
      0 ≤ (gazeToScreen M w h g).1 ∧ (gazeToScreen M w h g).1 ≤ w ∧
      0 ≤ (gazeToScreen M w h g).2 ∧ (gazeToScreen M w h g).2 ≤ h) ∧
    (∀ p : ℚ × ℚ, 0 < w → 0 < h → 0 ≤ p.1 → p.1 ≤ w → 0 ≤ p.2 → p.2 ≤ h →
      ∃ g : ℚ × ℚ, |g.1| ≤ 1 ∧ |g.2| ≤ 1 ∧
        gazeToScreen (defaultTransform w h) w h g = p) := by
  refine ⟨rfl, fun s => rfl, ?_, ?_⟩
  · intro M g hw hh
    refine ⟨?_, ?_, ?_, ?_⟩ <;>
      simp only [gazeToScreen, clip] <;>
      [exact le_min (le_max_right _ _) hw; exact min_le_right _ _;
       exact le_min (le_max_right _ _) hh; exact min_le_right _ _]
  · intro p hw hh h1 h2 h3 h4
    refine ⟨(2 * p.1 / w - 1, 2 * p.2 / h - 1), ?_, ?_, ?_⟩
    · rw [abs_le]
      constructor
      · have : 0 ≤ 2 * p.1 / w := by positivity
        linarith
      · have : 2 * p.1 / w ≤ 2 := by
          rw [div_le_iff₀ hw]
          linarith
        linarith
    · rw [abs_le]
      constructor
      · have : 0 ≤ 2 * p.2 / h := by positivity
        linarith
      · have : 2 * p.2 / h ≤ 2 := by
          rw [div_le_iff₀ hh]
          linarith
        linarith
    · have hv1 : (defaultTransform w h).mulVec ![2 * p.1 / w - 1, 2 * p.2 / h - 1, 1] 0
          = p.1 := by
        simp [defaultTransform, Matrix.mulVec, Matrix.dotProduct, Fin.sum_univ_three]
        field_simp
        ring
      have hv2 : (defaultTransform w h).mulVec ![2 * p.1 / w - 1, 2 * p.2 / h - 1, 1] 1
          = p.2 := by
        simp [defaultTransform, Matrix.mulVec, Matrix.dotProduct, Fin.sum_univ_three]
        field_simp
        ring
      simp only [gazeToScreen, hv1, hv2, clip]
      rw [max_eq_left h1, min_eq_left h2, max_eq_left h3, min_eq_left h4]

/-- C10 witness: instantiation at a 1920 x 1080 screen with the screen
point (480, 270). -/
theorem c10_witness :
    ∃ g : ℚ × ℚ, |g.1| ≤ 1 ∧ |g.2| ≤ 1 ∧
      gazeToScreen (defaultTransform 1920 1080) 1920 1080 g = (480, 270) :=
  (c10_default_mapping 1920 1080).2.2.2 (480, 270) (by norm_num) (by norm_num)
    (by norm_num) (by norm_num) (by norm_num) (by norm_num)

/-- The claim-C3 notion of an iris position lying within the camera
frame. -/
def inFrame (p : ℚ × ℚ) (fw fh : ℚ) : Prop :=
  0 ≤ p.1 ∧ p.1 ≤ fw ∧ 0 ≤ p.2 ∧ p.2 ≤ fh

/-- One in-range normalized coordinate. -/
theorem normalize_bounds {x f : ℚ} (hf : 0 < f) (h0 : 0 ≤ x) (h1 : x ≤ f) :
    -1 ≤ (x / f) * 2 - 1 ∧ (x / f) * 2 - 1 ≤ 1 := by
  have hl : 0 ≤ x / f := by positivity
  have hu : x / f ≤ 1 := (div_le_one hf).mpr h1
  constructor <;> linarith

/-- C3 is false as stated: the left iris (0,0) lies within the 100 x 100
frame, yet with eye dominance `both` and an out-of-frame right iris
(300, 0) the averaged gaze estimate is (2, -1), whose x component lies
outside `[-1, 1]`. -/
theorem c3_counterexample :
    inFrame (0, 0) 100 100 ∧
    estimateGaze EyeDominance.both (some (0, 0)) (some (300, 0)) 100 100 = some (2, -1) ∧
    ¬ ((2 : ℚ) ≤ 1) := by
  refine ⟨⟨by norm_num, by norm_num, by norm_num, by norm_num⟩, ?_, by norm_num⟩
  norm_num [estimateGaze, normalizeIris]

/-- C3 amended: when every iris position that is actually present lies
within the (positive-sized) frame, `estimate_gaze` returns a gaze vector
both of whose components lie in `[-1, 1]`; when both irises are absent it
returns `None` — it is total and never substitutes a default vector. -/
theorem c3_amended (dom : EyeDominance) (li ri : Option (ℚ × ℚ)) (fw fh : ℚ)
    (hfw : 0 < fw) (hfh : 0 < fh)
    (hl : ∀ p ∈ li, inFrame p fw fh) (hr : ∀ p ∈ ri, inFrame p fw fh) :
    (li = none → ri = none → estimateGaze dom li ri fw fh = none) ∧
    (li ≠ none ∨ ri ≠ none → ∃ g : ℚ × ℚ, estimateGaze dom li ri fw fh = some g ∧
      -1 ≤ g.1 ∧ g.1 ≤ 1 ∧ -1 ≤ g.2 ∧ g.2 ≤ 1) := by
  have norm_in : ∀ p : ℚ × ℚ, inFrame p fw fh →
      -1 ≤ (normalizeIris p fw fh).1 ∧ (normalizeIris p fw fh).1 ≤ 1 ∧
      -1 ≤ (normalizeIris p fw fh).2 ∧ (normalizeIris p fw fh).2 ≤ 1 := by
    intro p hp
    obtain ⟨h1, h2, h3, h4⟩ := hp
    obtain ⟨ha, hb⟩ := normalize_bounds hfw h1 h2
    obtain ⟨hc, hd⟩ := normalize_bounds hfh h3 h4
    exact ⟨ha, hb, hc, hd⟩
  constructor
  · rintro rfl rfl
    rfl
  · intro hne
    match li, ri with
    | none, none => simp at hne
    | some l, none =>
      obtain ⟨ha, hb, hc, hd⟩ := norm_in l (hl l rfl)
      exact ⟨normalizeIris l fw fh, rfl, ha, hb, hc, hd⟩
    | none, some r =>
      obtain ⟨ha, hb, hc, hd⟩ := norm_in r (hr r rfl)
      exact ⟨normalizeIris r fw fh, rfl, ha, hb, hc, hd⟩
    | some l, some r =>
      obtain ⟨ha, hb, hc, hd⟩ := norm_in l (hl l rfl)
      obtain ⟨ha', hb', hc', hd'⟩ := norm_in r (hr r rfl)
      cases dom with
      | left => exact ⟨normalizeIris l fw fh, rfl, ha, hb, hc, hd⟩
      | right => exact ⟨normalizeIris r fw fh, rfl, ha', hb', hc', hd'⟩
      | both =>
        refine ⟨_, rfl, ?_, ?_, ?_, ?_⟩ <;> simp only <;> linarith

/-- C3 amended witness: both irises centred in a 100 x 100 frame give the
gaze estimate (0, 0). -/
theorem c3_witness :
    ∃ g : ℚ × ℚ,
      estimateGaze EyeDominance.both (some (50, 50)) (some (50, 50)) 100 100 = some g ∧
      -1 ≤ g.1 ∧ g.1 ≤ 1 ∧ -1 ≤ g.2 ∧ g.2 ≤ 1 :=
  (c3_amended EyeDominance.both (some (50, 50)) (some (50, 50)) 100 100
    (by norm_num) (by norm_num)
    (by intro p hp; simp only [Option.mem_def, Option.some.injEq] at hp; subst hp
        exact ⟨by norm_num, by norm_num, by norm_num, by norm_num⟩)
    (by intro p hp; simp only [Option.mem_def, Option.some.injEq] at hp; subst hp
        exact ⟨by norm_num, by norm_num, by norm_num, by norm_num⟩)).2
    (Or.inl (by simp))

/-! ## Exact-fit calibration (claim C2) -/

/-- Three points of the plane are collinear (including the coincident
cases) iff this signed area expression vanishes. -/
def collinear3 (a b c : ℚ × ℚ) : Prop :=
  (b.1 - a.1) * (c.2 - a.2) - (b.2 - a.2) * (c.1 - a.1) = 0

/-- Homogeneous-coordinate matrix of a triple of gaze points, i.e. three
rows of the calibration design matrix. -/
def homogTriple (a b c : ℚ × ℚ) : Matrix (Fin 3) (Fin 3) ℚ :=
  !![a.1, a.2, 1; b.1, b.2, 1; c.1, c.2, 1]

theorem det_homogTriple (a b c : ℚ × ℚ) :
    (homogTriple a b c).det
      = (b.1 - a.1) * (c.2 - a.2) - (b.2 - a.2) * (c.1 - a.1) := by
  simp [homogTriple, Matrix.det_fin_three, Matrix.vecHead, Matrix.vecTail]
  ring

/-- The adjugate-based inverse is a left inverse when the determinant is
nonzero. -/
theorem qInv_mul {n : ℕ} (A : Matrix (Fin n) (Fin n) ℚ) (h : A.det ≠ 0) :
    qInv A * A = 1 := by
  rw [qInv, Matrix.smul_mul, Matrix.adjugate_mul, smul_smul, inv_mul_cancel₀ h, one_smul]

/-- A square rational matrix with nonzero determinant has trivial kernel. -/
theorem mulVec_eq_zero_of_det_ne_zero {n : ℕ} (A : Matrix (Fin n) (Fin n) ℚ)
    (h : A.det ≠ 0) (x : Fin n → ℚ) (hx : A.mulVec x = 0) : x = 0 := by
  have h1 : qInv A * A = 1 := qInv_mul A h
  calc x = (1 : Matrix (Fin n) (Fin n) ℚ).mulVec x := (Matrix.one_mulVec x).symm
  _ = (qInv A * A).mulVec x := by rw [h1]
  _ = (qInv A).mulVec (A.mulVec x) := (Matrix.mulVec_mulVec x (qInv A) A).symm
  _ = (qInv A).mulVec 0 := by rw [hx]
  _ = 0 := Matrix.mulVec_zero _

/-- The Gram matrix `Gᵀ G` of an injective (as `mulVec`) rectangular
matrix has nonzero determinant. -/
theorem gram_det_ne_zero {n : ℕ} (G : Matrix (Fin n) (Fin 3) ℚ)
    (hinj : ∀ x, G.mulVec x = 0 → x = 0) : (Gᵀ * G).det ≠ 0 := by
  intro hdet
  obtain ⟨v, hv0, hv⟩ := (Matrix.exists_mulVec_eq_zero_iff).mpr hdet
  apply hv0
  apply hinj
  have h1 : dotProduct v ((Gᵀ * G).mulVec v) = 0 := by
    rw [hv]
    simp
  rw [← Matrix.mulVec_mulVec, Matrix.dotProduct_mulVec, Matrix.vecMul_transpose] at h1
  exact Matrix.dotProduct_self_eq_zero.mp h1

/-- C2: for exactly 4 correspondence pairs with non-degenerate gaze points
(no three collinear, none coincident) whose screen points are produced
exactly by some affine map, `compute_calibration` succeeds and the fitted
2 x 3 transform, re-evaluated on each training gaze point through
`gaze_to_screen`'s matrix product, reproduces the training screen point
exactly — in particular within the claimed 1e-3 relative tolerance. -/
theorem c2_exact_fit (p0 p1 p2 p3 : CalibrationPoint) (s : GazeMapperState)
    (hpts : s.calibrationPoints = [p0, p1, p2, p3])
    (hnc012 : ¬ collinear3 p0.gazePos p1.gazePos p2.gazePos)
    (_hnc013 : ¬ collinear3 p0.gazePos p1.gazePos p3.gazePos)
    (_hnc023 : ¬ collinear3 p0.gazePos p2.gazePos p3.gazePos)
    (_hnc123 : ¬ collinear3 p1.gazePos p2.gazePos p3.gazePos)
    (_hd01 : p0.gazePos ≠ p1.gazePos) (_hd02 : p0.gazePos ≠ p2.gazePos)
    (_hd03 : p0.gazePos ≠ p3.gazePos) (_hd12 : p1.gazePos ≠ p2.gazePos)
    (_hd13 : p1.gazePos ≠ p3.gazePos) (_hd23 : p2.gazePos ≠ p3.gazePos)
    (A : Matrix (Fin 2) (Fin 3) ℚ)
    (hA : ∀ p ∈ s.calibrationPoints,
      A.mulVec ![p.gazePos.1, p.gazePos.2, 1] = ![p.screenPos.1, p.screenPos.2]) :
    (computeCalibration s).1 = true ∧
    ∀ p ∈ s.calibrationPoints,
      (computeCalibration s).2.transform.mulVec ![p.gazePos.1, p.gazePos.2, 1]
          = ![p.screenPos.1, p.screenPos.2] ∧
      ∀ i : Fin 2,
        |(computeCalibration s).2.transform.mulVec ![p.gazePos.1, p.gazePos.2, 1] i
            - ![p.screenPos.1, p.screenPos.2] i|
          ≤ 1/1000 * |![p.screenPos.1, p.screenPos.2] i| := by
  obtain ⟨cps, isc, tr⟩ := s
  replace hpts : cps = [p0, p1, p2, p3] := hpts
  subst hpts
  simp only at hA ⊢
  have h34 : (3 : ℕ) ≤ [p0, p1, p2, p3].length := by simp
  have hinj : ∀ x, (gazeMatrix [p0, p1, p2, p3]).mulVec x = 0 → x = 0 := by
    intro x hx
    have hdetT : (homogTriple p0.gazePos p1.gazePos p2.gazePos).det ≠ 0 := by
      rw [det_homogTriple]
      exact hnc012
    apply mulVec_eq_zero_of_det_ne_zero _ hdetT
    funext i
    have hrow : ∀ j : Fin 3, homogTriple p0.gazePos p1.gazePos p2.gazePos i j
        = gazeMatrix [p0, p1, p2, p3] (Fin.castLE h34 i) j := by
      intro j
      fin_cases i <;> fin_cases j <;> rfl
    have hcompat : (homogTriple p0.gazePos p1.gazePos p2.gazePos).mulVec x i
        = (gazeMatrix [p0, p1, p2, p3]).mulVec x (Fin.castLE h34 i) := by
      simp only [Matrix.mulVec, Matrix.dotProduct]
      exact Finset.sum_congr rfl (fun j _ => by rw [hrow j])
    rw [Pi.zero_apply, hcompat, hx, Pi.zero_apply]
  have hdet := gram_det_ne_zero (gazeMatrix [p0, p1, p2, p3]) hinj
  have hS : screenMatrix [p0, p1, p2, p3] = gazeMatrix [p0, p1, p2, p3] * Aᵀ := by
    funext i j
    have hmem : [p0, p1, p2, p3].get i ∈ [p0, p1, p2, p3] :=
      List.get_mem [p0, p1, p2, p3] i.1 i.2
    have h := congrFun (hA ([p0, p1, p2, p3].get i) hmem) j
    simp only [Matrix.mulVec, Matrix.dotProduct] at h
    simp only [Matrix.mul_apply, Matrix.transpose_apply, screenMatrix, gazeMatrix,
      Matrix.of_apply]
    rw [← h]
    exact Finset.sum_congr rfl (fun k _ => mul_comm _ _)
  have hlst : lstsq (gazeMatrix [p0, p1, p2, p3]) (screenMatrix [p0, p1, p2, p3]) = Aᵀ := by
    rw [lstsq, if_pos hdet, hS, ← Matrix.mul_assoc (gazeMatrix [p0, p1, p2, p3])ᵀ,
      ← Matrix.mul_assoc, qInv_mul _ hdet, Matrix.one_mul]
  have htr : (computeCalibration ⟨[p0, p1, p2, p3], isc, tr⟩).2.transform = A := by
    simp only [computeCalibration]
    rw [if_neg (by simp)]
    simp only [hlst, Matrix.transpose_transpose]
  have hsucc : (computeCalibration ⟨[p0, p1, p2, p3], isc, tr⟩).1 = true := by
    simp only [computeCalibration]
    rw [if_neg (by simp)]
  refine ⟨hsucc, ?_⟩
  intro p hp
  have hfit : (computeCalibration ⟨[p0, p1, p2, p3], isc, tr⟩).2.transform.mulVec
      ![p.gazePos.1, p.gazePos.2, 1] = ![p.screenPos.1, p.screenPos.2] := by
    rw [htr]
    exact hA p hp
  refine ⟨hfit, ?_⟩
  intro i
  rw [hfit, sub_self, abs_zero]
  positivity

/-- Concrete calibration points for the C2 witness: the four gaze corners
(0,0), (1,0), (0,1), (1,1) with screen points generated by the affine map
`(g_x, g_y) ↦ (100 g_x + 50, 100 g_y + 50)`. -/
def c2p0 : CalibrationPoint := ⟨(50, 50), (0, 0), (0, 0), (0, 0)⟩

def c2p1 : CalibrationPoint := ⟨(150, 50), (1, 0), (0, 0), (0, 0)⟩

def c2p2 : CalibrationPoint := ⟨(50, 150), (0, 1), (0, 0), (0, 0)⟩

def c2p3 : CalibrationPoint := ⟨(150, 150), (1, 1), (0, 0), (0, 0)⟩

def c2Start : GazeMapperState :=
  ⟨[c2p0, c2p1, c2p2, c2p3], false, defaultTransform 1920 1080⟩

/-- C2 witness: the exact-fit theorem applied to the concrete four-point
configuration above. -/
theorem c2_witness :
    (computeCalibration c2Start).1 = true ∧
    ∀ p ∈ c2Start.calibrationPoints,
      (computeCalibration c2Start).2.transform.mulVec ![p.gazePos.1, p.gazePos.2, 1]
          = ![p.screenPos.1, p.screenPos.2] ∧
      ∀ i : Fin 2,
        |(computeCalibration c2Start).2.transform.mulVec ![p.gazePos.1, p.gazePos.2, 1] i
            - ![p.screenPos.1, p.screenPos.2] i|
          ≤ 1/1000 * |![p.screenPos.1, p.screenPos.2] i| :=
  c2_exact_fit c2p0 c2p1 c2p2 c2p3 c2Start rfl
    (by norm_num [collinear3, c2p0, c2p1, c2p2])
    (by norm_num [collinear3, c2p0, c2p1, c2p3])
    (by norm_num [collinear3, c2p0, c2p2, c2p3])
    (by norm_num [collinear3, c2p1, c2p2, c2p3])
    (by norm_num [c2p0, c2p1, Prod.ext_iff])
    (by norm_num [c2p0, c2p2, Prod.ext_iff])
    (by norm_num [c2p0, c2p3, Prod.ext_iff])
    (by norm_num [c2p1, c2p2, Prod.ext_iff])
    (by norm_num [c2p1, c2p3, Prod.ext_iff])
    (by norm_num [c2p2, c2p3, Prod.ext_iff])
    !![100, 0, 50; 0, 100, 50]
    (by
      intro p hp
      fin_cases hp <;>
        · funext i
          fin_cases i <;>
            simp [c2p0, c2p1, c2p2, c2p3, Matrix.mulVec, Matrix.dotProduct,
              Fin.sum_univ_three] <;> norm_num)

/-! ## Degenerate calibration (claim C4) -/

/-- Four calibration points whose gaze positions all coincide at (0,0) —
a maximally degenerate (collinear and coincident) configuration. -/
def c4Points : List CalibrationPoint :=
  [⟨(100, 100), (0, 0), (0, 0), (0, 0)⟩, ⟨(200, 100), (0, 0), (0, 0), (0, 0)⟩,
   ⟨(100, 200), (0, 0), (0, 0), (0, 0)⟩, ⟨(200, 200), (0, 0), (0, 0), (0, 0)⟩]

def c4Start : GazeMapperState :=
  ⟨c4Points, false, defaultTransform 1920 1080⟩

/-- C4 is false as stated: on 4 gaze-coincident (hence collinear)
calibration points `compute_calibration` does not fail — `np.linalg.lstsq`
returns the minimum-norm solution for a singular system rather than
raising — so the call reports success instead of `SingularSystem`. -/
theorem c4_counterexample :
    c4Start.calibrationPoints.map CalibrationPoint.gazePos = [(0, 0), (0, 0), (0, 0), (0, 0)] ∧
    4 ≤ c4Start.calibrationPoints.length ∧
    (computeCalibration c4Start).1 = true :=
  ⟨rfl, by norm_num [c4Start, c4Points], rfl⟩

/-- C4 amended: with at least 4 calibration points — degenerate or not —
the least-squares solve does not raise, so `compute_calibration` returns
`True`; and on the concrete degenerate (all-coincident) input the active
transform is overwritten by the minimum-norm least-squares fit rather
than being left unchanged. -/
theorem c4_amended :
    (∀ s : GazeMapperState, 4 ≤ s.calibrationPoints.length →
      (computeCalibration s).1 = true) ∧
    (computeCalibration c4Start).2.transform ≠ c4Start.transform := by
  constructor
  · intro s h
    simp [computeCalibration, Nat.not_lt.mpr h]
  · have hgaze : ∀ (k : Fin c4Points.length), (c4Points.get k).gazePos = (0, 0) := by
      intro k
      fin_cases k <;> rfl
    have hcol0 : ∀ k, gazeMatrix c4Points k 0 = 0 := fun k => by
      fin_cases k <;> rfl
    have hcol1 : ∀ k, gazeMatrix c4Points k 1 = 0 := fun k => by
      fin_cases k <;> rfl
    have hM00 : ((gazeMatrix c4Points)ᵀ * gazeMatrix c4Points) 0 0 = 0 := by
      rw [Matrix.mul_apply]
      exact Finset.sum_eq_zero fun k _ => by rw [Matrix.transpose_apply, hcol0 k]; ring
    have hM01 : ((gazeMatrix c4Points)ᵀ * gazeMatrix c4Points) 0 1 = 0 := by
      rw [Matrix.mul_apply]
      exact Finset.sum_eq_zero fun k _ => by rw [Matrix.transpose_apply, hcol0 k]; ring
    have hM10 : ((gazeMatrix c4Points)ᵀ * gazeMatrix c4Points) 1 0 = 0 := by
      rw [Matrix.mul_apply]
      exact Finset.sum_eq_zero fun k _ => by rw [Matrix.transpose_apply, hcol1 k]; ring
    have hM11 : ((gazeMatrix c4Points)ᵀ * gazeMatrix c4Points) 1 1 = 0 := by
      rw [Matrix.mul_apply]
      exact Finset.sum_eq_zero fun k _ => by rw [Matrix.transpose_apply, hcol1 k]; ring
    have hdet0 : ((gazeMatrix c4Points)ᵀ * gazeMatrix c4Points).det = 0 := by
      rw [Matrix.det_fin_three, hM00, hM01, hM10, hM11]
      ring
    have hlen : c4Points.length = 4 := rfl
    have h4 : List.finRange (c4Points.length) =
        (show List (Fin 4) from
          [⟨0, by omega⟩, ⟨1, by omega⟩, ⟨2, by omega⟩, ⟨3, by omega⟩]) := rfl
    have h3 : List.finRange 3 = [0, 1, 2] := rfl
    have hcols : (List.finRange 3).map (fun j => (List.finRange (c4Points.length)).map
        (fun i => gazeMatrix c4Points i j)) = [[0,0,0,0],[0,0,0,0],[1,1,1,1]] := by
      rw [h3, h4]
      norm_num [gazeMatrix, c4Points]
    have hSL : (List.finRange (c4Points.length)).map
        (fun i => [screenMatrix c4Points i 0, screenMatrix c4Points i 1])
        = [[100,100],[200,100],[100,200],[200,200]] := by
      rw [h4]
      norm_num [screenMatrix, c4Points]
    have hpinv : pinvL (c4Points.length) [[0,0,0,0],[0,0,0,0],[1,1,1,1]]
        = [[0,0,0,0],[0,0,0,0],[1/4,1/4,1/4,1/4]] := by
      norm_num [pinvL, grevilleStep, linCombL, dotL, scaleL, vecAddL, vecSubL, hlen,
        List.foldl, List.zipWith, List.replicate]
    have hmm : matMulL [[0,0,0,0],[0,0,0,0],[1/4,1/4,1/4,1/4]]
        [[100,100],[200,100],[100,200],[200,200]] = [[0,0],[0,0],[150,150]] := by
      norm_num [matMulL, transposeL, dotL]
    have hlst : lstsq (gazeMatrix c4Points) (screenMatrix c4Points)
        = Matrix.of fun (i : Fin 3) (j : Fin 2) =>
            getEntryL [[0,0],[0,0],[(150:ℚ),150]] i j := by
      simp only [lstsq]
      rw [if_neg (fun hc => hc hdet0)]
      rw [hcols, hSL, hpinv, hmm]
    have htr00 : (computeCalibration c4Start).2.transform 0 0 = 0 := by
      have hne4 : ¬ (c4Start.calibrationPoints.length < 4) := by
        norm_num [c4Start, c4Points]
      simp only [computeCalibration, hne4, if_false]
      show (lstsq (gazeMatrix c4Points) (screenMatrix c4Points))ᵀ 0 0 = 0
      rw [hlst]
      rfl
    intro h
    have h2 := congrFun (congrFun h 0) 0
    rw [htr00] at h2
    have h960 : c4Start.transform 0 0 = 960 := by
      norm_num [c4Start, defaultTransform]
    rw [h960] at h2
    exact absurd h2 (by norm_num)

/-- C4 amended witness: success on the concrete degenerate input. -/
theorem c4_witness : (computeCalibration c4Start).1 = true :=
  c4_amended.1 c4Start (by norm_num [c4Start, c4Points])

/-! ## Expression engine (src/core/expression_engine.py) -/

/-- The `Expression` enum. -/
inductive Expression
  | none
  | blinkLeft
  | blinkRight
  | blinkBoth
  | blinkBothLong
  | eyebrowRaise
  | eyebrowLower
  | smile
  | jawOpen
  | headTiltLeft
  | headTiltRight
  | headNod
  | headShake
deriving DecidableEq, Repr

/-- The `ExpressionState` dataclass (defaults: `NONE`, 0, 0, 0). -/
structure ExprResult where
  expression : Expression
  confidence : ℚ
  duration : ℚ
  startTime : ℚ
deriving DecidableEq, Repr

/-- The fields of `EyeData` consumed by the expression engine. -/
structure EyeData where
  leftEAR : ℚ
  rightEAR : ℚ
  faceDetected : Bool
  confidence : ℚ
deriving DecidableEq, Repr

/-- Mutable state of an `ExpressionEngine`. -/
structure ExprState where
  blinkThreshold : ℚ
  longBlinkDuration : ℚ
  blinkCooldown : ℚ
  currentState : ExprResult
  lastBlinkTime : ℚ
  baselineLeft : ℚ
  baselineRight : ℚ
  baselineSamples : List (ℚ × ℚ)
  baselineInitialized : Bool
  leftEyeClosed : Bool
  rightEyeClosed : Bool
  bothEyesClosed : Bool
  blinkStartTime : ℚ
deriving DecidableEq, Repr

/-- `left_closed = left_ear < baseline_left_ear * blink_threshold`. -/
def eyeLeftClosed (s : ExprState) (eye : EyeData) : Bool :=
  decide (eye.leftEAR < s.baselineLeft * s.blinkThreshold)

/-- `right_closed = right_ear < baseline_right_ear * blink_threshold`. -/
def eyeRightClosed (s : ExprState) (eye : EyeData) : Bool :=
  decide (eye.rightEAR < s.baselineRight * s.blinkThreshold)

/-- The right-eye half of `_detect_blink` (single-eye start/release),
reached when neither the combined-release nor the left-eye release
returned. -/
def detectBlinkRight (s : ExprState) (leftClosed rightClosed : Bool) (now : ℚ) :
    Expression × ExprState :=
  let s := if rightClosed && !s.rightEyeClosed && !leftClosed then
    { s with rightEyeClosed := true, blinkStartTime := now } else s
  if s.rightEyeClosed && !rightClosed then
    let d := now - s.blinkStartTime
    let s := { s with rightEyeClosed := false, blinkStartTime := 0 }
    if d < 3/10 then (Expression.blinkRight, s) else (Expression.none, s)
  else (Expression.none, s)

/-- `ExpressionEngine._detect_blink` as a pure state transition, mirroring
the straight-line Python: combined start, combined release (returns),
left-eye start, left-eye release (returns only if quick), right-eye start,
right-eye release (returns only if quick), otherwise `NONE`. -/
def detectBlink (s : ExprState) (eye : EyeData) (now : ℚ) : Expression × ExprState :=
  let leftClosed := eyeLeftClosed s eye
  let rightClosed := eyeRightClosed s eye
  let bothClosed := leftClosed && rightClosed
  let s := if bothClosed && !s.bothEyesClosed then
    { s with bothEyesClosed := true, blinkStartTime := now } else s
  if s.bothEyesClosed && !bothClosed then
    let d := now - s.blinkStartTime
    let s := { s with bothEyesClosed := false, blinkStartTime := 0 }
    if d ≥ s.longBlinkDuration then (Expression.blinkBothLong, s)
    else (Expression.blinkBoth, s)
  else
    let s := if leftClosed && !s.leftEyeClosed && !rightClosed then
      { s with leftEyeClosed := true, blinkStartTime := now } else s
    if s.leftEyeClosed && !leftClosed then
      let d := now - s.blinkStartTime
      let s := { s with leftEyeClosed := false, blinkStartTime := 0 }
      if d < 3/10 then (Expression.blinkLeft, s)
      else detectBlinkRight s leftClosed rightClosed now
    else detectBlinkRight s leftClosed rightClosed now

/-- `ExpressionEngine.update_baseline`. -/
def updateBaseline (s : ExprState) (eye : EyeData) : ExprState :=
  if !eye.faceDetected then s
  else if s.baselineSamples.length < 30 then
    { s with baselineSamples := s.baselineSamples ++ [(eye.leftEAR, eye.rightEAR)] }
  else
    { s with
      baselineLeft := (s.baselineSamples.map Prod.fst).sum / s.baselineSamples.length,
      baselineRight := (s.baselineSamples.map Prod.snd).sum / s.baselineSamples.length,
      baselineInitialized := true }

/-- `ExpressionEngine.detect_expression`: early-outs for no face,
uninitialized baseline and the blink cooldown; otherwise `_detect_blink`
and, on a non-`NONE` result, a freshly built `ExpressionState` (note the
duration uses `blink_start_time` *after* `_detect_blink` has reset it). -/
def detectExpression (s : ExprState) (eye : EyeData) (now : ℚ) :
    ExprResult × ExprState :=
  if !eye.faceDetected then
    let r : ExprResult := ⟨Expression.none, 0, 0, 0⟩
    (r, { s with currentState := r })
  else if !s.baselineInitialized then
    let s1 := updateBaseline s eye
    (s1.currentState, s1)
  else if now - s.lastBlinkTime < s.blinkCooldown then (s.currentState, s)
  else
    let es := detectBlink s eye now
    if es.1 ≠ Expression.none then
      let r : ExprResult :=
        ⟨es.1, eye.confidence,
          if es.2.blinkStartTime > 0 then now - es.2.blinkStartTime else 0, now⟩
      (r, { es.2 with currentState := r, lastBlinkTime := now })
    else (es.2.currentState, es.2)

/-- With a face, an established baseline and the cooldown elapsed,
`detect_expression` reaches `_detect_blink`. -/
theorem detectExpression_active (s : ExprState) (eye : EyeData) (now : ℚ)
    (hface : eye.faceDetected = true) (hbase : s.baselineInitialized = true)
    (hcool : s.blinkCooldown ≤ now - s.lastBlinkTime) :
    detectExpression s eye now =
      (if (detectBlink s eye now).1 ≠ Expression.none then
        ((⟨(detectBlink s eye now).1, eye.confidence,
            if (detectBlink s eye now).2.blinkStartTime > 0 then
              now - (detectBlink s eye now).2.blinkStartTime else 0, now⟩ : ExprResult),
          { (detectBlink s eye now).2 with
              currentState :=
                ⟨(detectBlink s eye now).1, eye.confidence,
                  if (detectBlink s eye now).2.blinkStartTime > 0 then
                    now - (detectBlink s eye now).2.blinkStartTime else 0, now⟩,
              lastBlinkTime := now })
      else ((detectBlink s eye now).2.currentState, (detectBlink s eye now).2)) := by
  have hnc : ¬ (now - s.lastBlinkTime < s.blinkCooldown) := not_lt.mpr hcool
  simp only [detectExpression, hface, hbase, Bool.not_true, Bool.false_eq_true, if_false,
    hnc]

/-- Combined release in `_detect_blink`: both eyes were closed and the new
observation is not both-closed. -/
theorem detectBlink_both_release (s : ExprState) (eye : EyeData) (now : ℚ)
    (hboth : s.bothEyesClosed = true)
    (hobs : (eyeLeftClosed s eye && eyeRightClosed s eye) = false) :
    detectBlink s eye now =
      (if now - s.blinkStartTime ≥ s.longBlinkDuration then Expression.blinkBothLong
       else Expression.blinkBoth,
       { s with bothEyesClosed := false, blinkStartTime := 0 }) := by
  simp only [detectBlink, hobs, hboth, Bool.false_and, Bool.false_eq_true, if_false,
    Bool.not_false, Bool.and_true, if_true]
  split <;> rfl

/-- Left-eye release in `_detect_blink` with the right eye open throughout. -/
theorem detectBlink_left_release (s : ExprState) (eye : EyeData) (now : ℚ)
    (hboth : s.bothEyesClosed = false)
    (hl : s.leftEyeClosed = true) (hr : s.rightEyeClosed = false)
    (hlo : eyeLeftClosed s eye = false) (hro : eyeRightClosed s eye = false) :
    detectBlink s eye now =
      (if now - s.blinkStartTime < 3/10 then Expression.blinkLeft else Expression.none,
       { s with leftEyeClosed := false, blinkStartTime := 0 }) := by
  simp only [detectBlink, detectBlinkRight, hboth, hl, hr, hlo, hro, Bool.false_and,
    Bool.and_false, Bool.false_eq_true, if_false, Bool.not_false, Bool.and_true,
    Bool.true_and, if_true, Bool.false_or]
  split <;> rfl

/-- Right-eye release in `_detect_blink` with the left eye open throughout. -/
theorem detectBlink_right_release (s : ExprState) (eye : EyeData) (now : ℚ)
    (hboth : s.bothEyesClosed = false)
    (hl : s.leftEyeClosed = false) (hr : s.rightEyeClosed = true)
    (hlo : eyeLeftClosed s eye = false) (hro : eyeRightClosed s eye = false) :
    detectBlink s eye now =
      (if now - s.blinkStartTime < 3/10 then Expression.blinkRight else Expression.none,
       { s with rightEyeClosed := false, blinkStartTime := 0 }) := by
  simp only [detectBlink, detectBlinkRight, hboth, hl, hr, hlo, hro, Bool.false_and,
    Bool.and_false, Bool.false_eq_true, if_false, Bool.not_false, Bool.and_true,
    Bool.true_and, if_true]
  split <;> rfl

/-- C5: with baseline established, a detected face and the blink cooldown
elapsed — (i) a combined closure released after at least the long-blink
threshold is classified `BLINK_BOTH_LONG`, and after less
`BLINK_BOTH`; (ii) a left-eye closure with the right eye open is
classified `BLINK_LEFT` on reopening when its duration is < 300 ms, while
a duration ≥ 300 ms yields no classification (the previous expression
state is returned unchanged); (iii) symmetrically for the right eye. -/
theorem c5_blink_classification (s : ExprState) (eye : EyeData) (now : ℚ)
    (hface : eye.faceDetected = true)
    (hbase : s.baselineInitialized = true)
    (hcool : s.blinkCooldown ≤ now - s.lastBlinkTime) :
    (s.bothEyesClosed = true →
      (eyeLeftClosed s eye && eyeRightClosed s eye) = false →
      ((s.longBlinkDuration ≤ now - s.blinkStartTime →
          (detectExpression s eye now).1.expression = Expression.blinkBothLong) ∧
       (now - s.blinkStartTime < s.longBlinkDuration →
          (detectExpression s eye now).1.expression = Expression.blinkBoth))) ∧
    (s.bothEyesClosed = false → s.leftEyeClosed = true → s.rightEyeClosed = false →
      eyeLeftClosed s eye = false → eyeRightClosed s eye = false →
      ((now - s.blinkStartTime < 3/10 →
          (detectExpression s eye now).1.expression = Expression.blinkLeft) ∧
       (3/10 ≤ now - s.blinkStartTime →
          (detectExpression s eye now).1 = s.currentState))) ∧
    (s.bothEyesClosed = false → s.leftEyeClosed = false → s.rightEyeClosed = true →
      eyeLeftClosed s eye = false → eyeRightClosed s eye = false →
      ((now - s.blinkStartTime < 3/10 →
          (detectExpression s eye now).1.expression = Expression.blinkRight) ∧
       (3/10 ≤ now - s.blinkStartTime →
          (detectExpression s eye now).1 = s.currentState))) := by
  have hact := detectExpression_active s eye now hface hbase hcool
  refine ⟨?_, ?_, ?_⟩
  · intro hboth hobs
    have hdb := detectBlink_both_release s eye now hboth hobs
    constructor
    · intro hlong
      rw [hact, hdb]
      simp [ge_iff_le, hlong]
    · intro hshort
      rw [hact, hdb]
      simp [ge_iff_le, not_le.mpr hshort]
  · intro hboth hl hr hlo hro
    have hdb := detectBlink_left_release s eye now hboth hl hr hlo hro
    constructor
    · intro hquick
      rw [hact, hdb]
      simp [hquick]
    · intro hslow
      rw [hact, hdb]
      simp [not_lt.mpr hslow]
  · intro hboth hl hr hlo hro
    have hdb := detectBlink_right_release s eye now hboth hl hr hlo hro
    constructor
    · intro hquick
      rw [hact, hdb]
      simp [hquick]
    · intro hslow
      rw [hact, hdb]
      simp [not_lt.mpr hslow]

/-- Expression-engine state for the C5 witness: both eyes have been
closed since time 1, baseline 0.3 for both eyes, threshold fraction 0.2,
long-blink threshold 0.5 s, cooldown 0.2 s. -/
def c5S : ExprState :=
  ⟨1/5, 1/2, 1/5, ⟨Expression.none, 0, 0, 0⟩, 0, 3/10, 3/10, [], true,
    false, false, true, 1⟩

/-- Open-eyes observation for the C5 witness. -/
def c5Eye : EyeData := ⟨3/10, 3/10, true, 1⟩

/-- C5 witness: releasing the combined closure at time 2 (duration 1 s ≥
0.5 s) classifies a long combined blink. -/
theorem c5_witness :
    (detectExpression c5S c5Eye 2).1.expression = Expression.blinkBothLong :=
  ((c5_blink_classification c5S c5Eye 2 rfl rfl (by norm_num [c5S])).1
    rfl (by norm_num [eyeLeftClosed, eyeRightClosed, c5S, c5Eye])).1
    (by norm_num [c5S])

/-! ## Velocity-based smoother (src/core/smoother.py) -/

/-- Mutable state of a `VelocityBasedSmoother`: dead-zone radius,
acceleration exponent, the lazily initialized anchor (`center`) and the
`velocity_history` deque (maxlen 5). -/
structure VelState where
  deadZone : ℝ
  acceleration : ℝ
  center : Option (ℝ × ℝ)
  velocityHistory : List (ℝ × ℝ)

/-- `np.linalg.norm` of a 2-vector. -/
noncomputable def norm2 (v : ℝ × ℝ) : ℝ := Real.sqrt (v.1 ^ 2 + v.2 ^ 2)

/-- `np.clip` over the reals. -/
def clipR (x lo hi : ℝ) : ℝ := min (max x lo) hi

/-- Append to the `velocity_history` deque (maxlen 5). -/
def appendVel (l : List (ℝ × ℝ)) (p : ℝ × ℝ) : List (ℝ × ℝ) :=
  if 5 ≤ l.length then l.tail ++ [p] else l ++ [p]

/-- `VelocityBasedSmoother.apply`: sets the anchor to the screen centre on
first use; inside the dead zone returns the anchor unchanged; otherwise
records the position in the history (the locally computed `velocity` is
never used), applies the acceleration curve
`1 + (dist / (diag/2)) ^ acceleration` and clamps to the screen. -/
noncomputable def applyVel (s : VelState) (pos : ℝ × ℝ) (w h : ℝ) :
    (ℝ × ℝ) × VelState :=
  let c := match s.center with
    | some c0 => c0
    | none => (w / 2, h / 2)
  let s1 := { s with center := some c }
  let diff := (pos.1 - c.1, pos.2 - c.2)
  let dist := norm2 diff
  if dist < s1.deadZone then (c, s1)
  else
    let s2 := { s1 with velocityHistory := appendVel s1.velocityHistory pos }
    let diag := norm2 (w, h)
    let ratio := dist / (diag / 2)
    let factor := 1 + ratio ^ s.acceleration
    ((clipR (c.1 + diff.1 * factor) 0 w, clipR (c.2 + diff.2 * factor) 0 h), s2)

/-- C9: whenever the input position's distance from the stage's anchor
point is strictly below the dead-zone radius, the stage's output is
exactly the anchor. -/
theorem c9_dead_zone (s : VelState) (pos : ℝ × ℝ) (w h : ℝ) (c : ℝ × ℝ)
    (hc : c = (match s.center with | some c0 => c0 | none => (w / 2, h / 2)))
    (hin : norm2 (pos.1 - c.1, pos.2 - c.2) < s.deadZone) :
    (applyVel s pos w h).1 = c := by
  subst hc
  simp only [applyVel]
  rw [if_pos hin]

/-- C9 witness: anchor (960, 540), dead zone 15, input (960, 541) at
distance 1 from the anchor: the output is frozen at the anchor. -/
theorem c9_witness :
    (applyVel ⟨15, 3/2, some (960, 540), []⟩ (960, 541) 1920 1080).1 = (960, 540) :=
  c9_dead_zone ⟨15, 3/2, some (960, 540), []⟩ (960, 541) 1920 1080 (960, 540) rfl
    (by
      show Real.sqrt (((960 : ℝ) - 960) ^ 2 + ((541 : ℝ) - 540) ^ 2) < 15
      norm_num)
